import Mathlib

/-!
Shallow embedding of the NestJS Unit-of-Work / AsyncLocalStorage repository.

Core source (src/unnamed/part_001, `UnitOfWorkService`): an
`AsyncLocalStorage<Map<string, EntityManager>>` carries the ambient
transaction handle; `getManager` reads it (or creates a default manager);
`doTransactional` / `doTransactionalCallHandler` open a transaction on the
TypeORM connection, establish a fresh storage scope holding the
`EntityManager` of that transaction, and run the enclosed work inside it.
`TransactionStorageInterceptor` (src/unnamed/part_002) delegates to
`doTransactionalCallHandler`.  The Order domain collaborators
(src/src/order/...) consume `getManager`.

Modelling conventions: promises/exceptions become `Except`; the mutable
world (current AsyncLocalStorage store of the logical execution, the
fresh-handle source of the connection, the database state) is threaded
explicitly through a `Runtime` record; the consumed persistence-engine
interface (TypeORM `connection.transaction`, `createEntityManager`,
`save`, `findOneOrFail`) is modelled from its boundary contract in the
spec (section 6): run the unit of work, commit its writes if it returns
normally, roll back and propagate if it raises.
-/

namespace UoW

/-- A TypeORM `EntityManager` handle, identified by the order in which the
connection created it; `transactional` records whether it was opened by
`connection.transaction` (true) or by `createEntityManager` (false). -/
structure EntityManager where
  id : Nat
  transactional : Bool
deriving DecidableEq, Repr

/-- The `Map<string, EntityManager>` stored in the AsyncLocalStorage,
modelled as an association list with JS `Map` set/get/has semantics. -/
abbrev Store := List (String × EntityManager)

def Store.emptyMap : Store := []

/-- JS `Map.prototype.set`: overwrite an existing key in place, otherwise
append the new entry. -/
def Store.set : Store → String → EntityManager → Store
  | [], key, v => [(key, v)]
  | (k, w) :: rest, key, v =>
      if k = key then (k, v) :: rest else (k, w) :: Store.set rest key v

/-- JS `Map.prototype.get` (absent key gives `undefined`, here `none`). -/
def Store.get : Store → String → Option EntityManager
  | [], _ => none
  | (k, v) :: rest, key => if k = key then some v else Store.get rest key

/-- JS `Map.prototype.has`. -/
def Store.has (s : Store) (key : String) : Bool :=
  (Store.get s key).isSome

/-- The well-known key used by `UnitOfWorkService`. -/
def typeOrmKey : String := "typeOrmEntityManager"

/-- The TypeORM connection, reduced to the source of fresh manager ids. -/
structure Connection where
  nextId : Nat
deriving DecidableEq, Repr

/-- `connection.createEntityManager()`: a fresh default, non-transactional
handle (spec: "freshly created default (non-transactional) handle"). -/
def Connection.createEntityManager (c : Connection) : EntityManager × Connection :=
  (⟨c.nextId, false⟩, ⟨c.nextId + 1⟩)

/-- Opening a transaction hands the unit of work a fresh transactional
manager. -/
def Connection.createTxManager (c : Connection) : EntityManager × Connection :=
  (⟨c.nextId, true⟩, ⟨c.nextId + 1⟩)

/-- The mutable world of one logical execution: its current
AsyncLocalStorage store (`none` when no scope is active), the shared
connection, and the database state `δ` (as observed through committed
transactions). -/
structure Runtime (δ : Type) where
  ctx : Option Store
  conn : Connection
  db : δ
deriving DecidableEq, Repr

/-- `asyncLocalStorage.run(store, body)`: the body executes with `store`
as the current store for its whole dynamic extent; when the body ends
(normally or by failure) the previous store of this logical execution is
restored.  Models the Node primitive consumed by the source. -/
def AsyncLocalStorage.run {δ ε α : Type} (store : Store)
    (body : Runtime δ → Except ε α × Runtime δ) (s : Runtime δ) :
    Except ε α × Runtime δ :=
  let saved := s.ctx
  let (r, t) := body { s with ctx := some store }
  (r, { t with ctx := saved })

/-- `this.asyncLocalStorage.getStore().set(key, v)` as performed at the
top of each transaction scope. -/
def getStoreSet {δ : Type} (key : String) (v : EntityManager) (s : Runtime δ) :
    Runtime δ :=
  { s with ctx := s.ctx.map (fun st => Store.set st key v) }

/-- `connection.transaction(work)`, modelled from the consumed interface
in the spec (section 6): run `work` with a fresh transactional manager;
commit (keep the database state it produced) when it returns normally;
roll back (restore the database state from before the call) and propagate
the failure when it raises. -/
def Connection.transaction {δ ε α : Type}
    (work : EntityManager → Runtime δ → Except ε α × Runtime δ)
    (s : Runtime δ) : Except ε α × Runtime δ :=
  let (manager, c1) := s.conn.createTxManager
  let (r, t) := work manager { s with conn := c1 }
  match r with
  | .ok a => (.ok a, t)
  | .error e => (.error e, { t with db := s.db })

/-- `UnitOfWorkService.getManager()`: if a store is active and holds the
well-known key, return the stored manager; otherwise create a default
manager on the connection. -/
def getManager {δ : Type} (s : Runtime δ) : EntityManager × Runtime δ :=
  match s.ctx with
  | some storage =>
      if Store.has storage typeOrmKey then
        ((Store.get storage typeOrmKey).getD ⟨0, false⟩, s)
      else
        let (em, c) := s.conn.createEntityManager
        (em, { s with conn := c })
  | none =>
      let (em, c) := s.conn.createEntityManager
      (em, { s with conn := c })

/-- `UnitOfWorkService.doTransactional(fn)`: open a transaction, run the
storage scope with a fresh map, store the transaction manager under the
well-known key, invoke `fn` with the manager, and return its response
through the transaction. -/
def doTransactional {δ ε α : Type}
    (fn : EntityManager → Runtime δ → Except ε α × Runtime δ)
    (s : Runtime δ) : Except ε α × Runtime δ :=
  Connection.transaction
    (fun manager s1 =>
      AsyncLocalStorage.run Store.emptyMap
        (fun s2 => fn manager (getStoreSet typeOrmKey manager s2)) s1) s

/-- A NestJS `CallHandler`: `handle` models `next.handle().toPromise()`,
the rest of request processing awaited to completion — it runs in the
ambient runtime where it is forced and yields the final response or the
failure raised anywhere downstream. -/
structure CallHandler (δ ε α : Type) where
  handle : Runtime δ → Except ε α × Runtime δ

/-- `UnitOfWorkService.doTransactionalCallHandler(fn)`: as
`doTransactional`, but the enclosed work is `fn.handle().toPromise()`,
awaited inside the scope before the transaction callback returns. -/
def doTransactionalCallHandler {δ ε α : Type} (fn : CallHandler δ ε α)
    (s : Runtime δ) : Except ε α × Runtime δ :=
  Connection.transaction
    (fun manager s1 =>
      AsyncLocalStorage.run Store.emptyMap
        (fun s2 => fn.handle (getStoreSet typeOrmKey manager s2)) s1) s

/-- `TransactionStorageInterceptor.intercept(context, next)`: delegates to
`doTransactionalCallHandler(next)`. -/
def TransactionStorageInterceptor.intercept {δ ε α : Type}
    (next : CallHandler δ ε α) (s : Runtime δ) : Except ε α × Runtime δ :=
  doTransactionalCallHandler next s

/-- The transactional manager that a call of `doTransactional` from
runtime `s` opens. -/
def openedManager {δ : Type} (s : Runtime δ) : EntityManager :=
  ⟨s.conn.nextId, true⟩

/-- The runtime in which the work of `doTransactional` from runtime `s`
executes: the fresh scope holding the opened manager, the advanced
connection, the unchanged database. -/
def scopedRuntime {δ : Type} (s : Runtime δ) : Runtime δ :=
  { ctx := some (Store.set Store.emptyMap typeOrmKey (openedManager s)),
    conn := ⟨s.conn.nextId + 1⟩,
    db := s.db }

/-- Failures raised through the stack: the deliberately injected
`HttpException("xablau", 500)` of `OrderRepository.saveOrderItem` and the
NotFound-class failure of TypeORM `findOneOrFail`. -/
inductive AppError where
  | httpException (message : String) (status : Nat)
  | entityNotFound (entity : String)
deriving DecidableEq, Repr

/-- A persisted `Order` row (`id`, `date`, `description`); its items live
in their own table and are loaded through the `items` relation. -/
structure OrderRow where
  id : Nat
  date : String
  description : String
deriving DecidableEq, Repr

/-- A persisted `Item` row, owned by the order `orderId`. -/
structure ItemRow where
  id : Nat
  name : String
  quantity : Nat
  orderId : Nat
deriving DecidableEq, Repr

/-- The database state exercised by the Order domain: the two tables and
their auto-increment counters. -/
structure OrderDB where
  orders : List OrderRow
  items : List ItemRow
  nextOrderId : Nat
  nextItemId : Nat
deriving DecidableEq, Repr

/-- `manager.save(order)` on the persistence engine (modelled from the
spec boundary, section 6): insert with a fresh id and return the saved
row. -/
def OrderDB.saveOrderRow (db : OrderDB) (date description : String) :
    OrderRow × OrderDB :=
  let row : OrderRow := ⟨db.nextOrderId, date, description⟩
  (row, { db with orders := db.orders ++ [row], nextOrderId := db.nextOrderId + 1 })

/-- `manager.save(item)` on the persistence engine (modelled from the
spec boundary, section 6). -/
def OrderDB.saveItemRow (db : OrderDB) (name : String) (quantity orderId : Nat) :
    ItemRow × OrderDB :=
  let row : ItemRow := ⟨db.nextItemId, name, quantity, orderId⟩
  (row, { db with items := db.items ++ [row], nextItemId := db.nextItemId + 1 })

/-- `manager.findOne(Order, id, {relations: [items]})` (modelled from the
spec boundary): the order row together with its items, or `none`. -/
def OrderDB.findOrderWithItems (db : OrderDB) (idOrder : Nat) :
    Option (OrderRow × List ItemRow) :=
  match db.orders.find? (fun o => o.id == idOrder) with
  | some o => some (o, db.items.filter (fun it => it.orderId == idOrder))
  | none => none

/-- `CreateOrderRequestDto` item entry. -/
structure ItemDto where
  name : String
  quantity : Nat
deriving DecidableEq, Repr

/-- `CreateOrderRequestDto`. -/
structure CreateOrderRequestDto where
  date : String
  description : String
  items : List ItemDto
deriving DecidableEq, Repr

/-- `OrderRepository.getById(idOrder)`:
`this.uow.getManager().findOneOrFail(Order, idOrder, {relations: [items]})`.
`findOneOrFail` fails with a NotFound-class error when nothing matches
(spec boundary); the failure is surfaced unchanged. -/
def OrderRepository.getById (s : Runtime OrderDB) (idOrder : Nat) :
    Except AppError (OrderRow × List ItemRow) × Runtime OrderDB :=
  let (_m, s1) := getManager s
  match s1.db.findOrderWithItems idOrder with
  | some res => (.ok res, s1)
  | none => (.error (.entityNotFound "Order"), s1)

/-- `OrderRepository.saveOrder(order)`: `this.uow.getManager().save(order)`. -/
def OrderRepository.saveOrder (s : Runtime OrderDB) (date description : String) :
    Except AppError OrderRow × Runtime OrderDB :=
  let (_m, s1) := getManager s
  let (row, db1) := s1.db.saveOrderRow date description
  (.ok row, { s1 with db := db1 })

/-- `OrderRepository.saveOrderItem(item)`: draws `rand` (the source uses
`Math.floor(Math.random()*5)`; here the draw is an explicit input, the
injectable fault hook of the spec design notes), throws
`HttpException("xablau", 500)` when `rand <= 2`, otherwise saves through
the ambient manager. -/
def OrderRepository.saveOrderItem (rand : Nat) (s : Runtime OrderDB)
    (name : String) (quantity orderId : Nat) :
    Except AppError ItemRow × Runtime OrderDB :=
  if rand ≤ 2 then
    (.error (.httpException "xablau" 500), s)
  else
    let (_m, s1) := getManager s
    let (row, db1) := s1.db.saveItemRow name quantity orderId
    (.ok row, { s1 with db := db1 })

/-- `OrderService.getById(id)`: delegates to the repository; the failure,
if any, is surfaced unchanged. -/
def OrderService.getById (s : Runtime OrderDB) (id : Nat) :
    Except AppError (OrderRow × List ItemRow) × Runtime OrderDB :=
  OrderRepository.getById s id

/-- The `for (const itemDto of orderDto.items)` loop of
`OrderService.createOrder`: save each item in order, stopping at the
first failure; the draw for the item at position `idx` is `rands idx`. -/
def OrderService.saveItems (rands : Nat → Nat) (idx : Nat) (order : OrderRow) :
    List ItemDto → Runtime OrderDB → Except AppError Unit × Runtime OrderDB
  | [], s => (.ok (), s)
  | d :: ds, s =>
      match OrderRepository.saveOrderItem (rands idx) s d.name d.quantity order.id with
      | (.ok _, s1) => OrderService.saveItems rands (idx + 1) order ds s1
      | (.error e, s1) => (.error e, s1)

/-- `OrderService.createOrder(orderDto)`: save the order, then save each
item against it; return the saved order. -/
def OrderService.createOrder (rands : Nat → Nat) (dto : CreateOrderRequestDto)
    (s : Runtime OrderDB) : Except AppError OrderRow × Runtime OrderDB :=
  match OrderRepository.saveOrder s dto.date dto.description with
  | (.ok order, s1) =>
      match OrderService.saveItems rands 0 order dto.items s1 with
      | (.ok _, s2) => (.ok order, s2)
      | (.error e, s2) => (.error e, s2)
  | (.error e, s1) => (.error e, s1)

/-- `OrderController.createFirstWay(orderDto)`:
`this.unitOfWork.doTransactional(async () => createOrder(orderDto))`. -/
def OrderController.createFirstWay (rands : Nat → Nat)
    (dto : CreateOrderRequestDto) (s : Runtime OrderDB) :
    Except AppError OrderRow × Runtime OrderDB :=
  doTransactional (fun _manager s1 => OrderService.createOrder rands dto s1) s

/-- One step of a logical execution in the cooperative interleaving model
of the spec (section 5): `getMgr` calls `UnitOfWorkService.getManager`;
`suspend` is any other computation or awaited suspension point. -/
inductive Step where
  | getMgr : Step
  | suspend : Step
deriving DecidableEq, Repr

/-- A logical execution: its own AsyncLocalStorage context — per the Node
primitive the context travels with the logical call tree across
suspensions, never with the shared worker — and its remaining steps. -/
structure TaskSt where
  ctx : Option Store
  prog : List Step
deriving DecidableEq, Repr

/-- Run `getManager` for a task against the shared connection. -/
def stepGetMgr (t : TaskSt) (c : Connection) : EntityManager × Connection :=
  let (em, s1) := getManager (δ := Unit) ⟨t.ctx, c, ()⟩
  (em, s1.conn)

/-- Interleaved execution of two logical units of work A and B over the
shared connection, driven by an arbitrary schedule (`false` resumes A,
`true` resumes B; a pick of a finished task is a no-op).  Returns the log
of `getManager` results, each tagged with the task that made the call. -/
def runSched : List Bool → TaskSt → TaskSt → Connection →
    List (Bool × EntityManager)
  | [], _, _, _ => []
  | pick :: rest, tA, tB, c =>
      if pick then
        match tB.prog with
        | [] => runSched rest tA tB c
        | Step.getMgr :: ps =>
            let (em, c1) := stepGetMgr tB c
            (true, em) :: runSched rest tA ⟨tB.ctx, ps⟩ c1
        | Step.suspend :: ps => runSched rest tA ⟨tB.ctx, ps⟩ c
      else
        match tA.prog with
        | [] => runSched rest tA tB c
        | Step.getMgr :: ps =>
            let (em, c1) := stepGetMgr tA c
            (false, em) :: runSched rest ⟨tA.ctx, ps⟩ tB c1
        | Step.suspend :: ps => runSched rest ⟨tA.ctx, ps⟩ tB c

theorem Store.get_set_self (s : Store) (k : String) (v : EntityManager) :
    Store.get (Store.set s k v) k = some v := by
  induction s with
  | nil => simp [Store.set, Store.get]
  | cons hd tl ih =>
      obtain ⟨k0, v0⟩ := hd
      by_cases h : k0 = k <;> simp [Store.set, Store.get, h, ih]

theorem getManager_of_stored {δ : Type} (s : Runtime δ) (st : Store)
    (m : EntityManager) (hctx : s.ctx = some st)
    (hget : Store.get st typeOrmKey = some m) :
    getManager s = (m, s) := by
  simp [getManager, hctx, Store.has, hget]

theorem getManager_scoped {δ : Type} (s : Runtime δ) :
    getManager (scopedRuntime s) = (openedManager s, scopedRuntime s) :=
  getManager_of_stored (scopedRuntime s)
    (Store.set Store.emptyMap typeOrmKey (openedManager s)) (openedManager s)
    rfl (Store.get_set_self Store.emptyMap typeOrmKey (openedManager s))

theorem doTransactional_eq {δ ε α : Type}
    (fn : EntityManager → Runtime δ → Except ε α × Runtime δ) (s : Runtime δ) :
    doTransactional fn s =
      match fn (openedManager s) (scopedRuntime s) with
      | (.ok a, t) => (.ok a, { t with ctx := s.ctx })
      | (.error e, t) => (.error e, { ctx := s.ctx, conn := t.conn, db := s.db }) := by
  rcases h : fn (openedManager s) (scopedRuntime s) with ⟨r, t⟩
  simp only [doTransactional, Connection.transaction, AsyncLocalStorage.run,
    getStoreSet, Connection.createTxManager, Option.map_some', Store.emptyMap,
    openedManager, scopedRuntime] at h ⊢
  rw [h]
  cases r <;> rfl

theorem getManager_db_eq {δ : Type} (s : Runtime δ) :
    (getManager s).2.db = s.db := by
  rcases s with ⟨ctx, conn, db⟩
  cases ctx with
  | none => rfl
  | some st =>
      simp only [getManager]
      split <;> rfl

/-- Claim C1: when the work passed to `doTransactional` raises any
failure, the transaction is rolled back in full (the database state after
the call is the database state from before it, so no write performed
inside this unit of work remains visible), the original failure is
re-raised unchanged to the caller, and the scope of the caller is
restored. -/
theorem doTransactional_rolls_back_on_failure {δ ε α : Type}
    (fn : EntityManager → Runtime δ → Except ε α × Runtime δ)
    (s : Runtime δ) (e : ε)
    (hfail : (fn (openedManager s) (scopedRuntime s)).1 = .error e) :
    (doTransactional fn s).1 = .error e ∧
    (doTransactional fn s).2.db = s.db ∧
    (doTransactional fn s).2.ctx = s.ctx := by
  rcases h : fn (openedManager s) (scopedRuntime s) with ⟨r, t⟩
  rw [h] at hfail
  simp only at hfail
  subst hfail
  rw [doTransactional_eq, h]
  exact ⟨rfl, rfl, rfl⟩

theorem doTransactional_rolls_back_on_failure_witness :
    ((fun (_ : EntityManager) (t : Runtime Nat) =>
        ((Except.error 7 : Except Nat Unit), { t with db := 99 }))
      (openedManager (⟨none, ⟨0⟩, 3⟩ : Runtime Nat))
      (scopedRuntime (⟨none, ⟨0⟩, 3⟩ : Runtime Nat))).1 = Except.error 7
    ∧ ((doTransactional
          (fun (_ : EntityManager) (t : Runtime Nat) =>
            ((Except.error 7 : Except Nat Unit), { t with db := 99 }))
          (⟨none, ⟨0⟩, 3⟩ : Runtime Nat)).1 = Except.error 7
      ∧ (doTransactional
          (fun (_ : EntityManager) (t : Runtime Nat) =>
            ((Except.error 7 : Except Nat Unit), { t with db := 99 }))
          (⟨none, ⟨0⟩, 3⟩ : Runtime Nat)).2.db = 3
      ∧ (doTransactional
          (fun (_ : EntityManager) (t : Runtime Nat) =>
            ((Except.error 7 : Except Nat Unit), { t with db := 99 }))
          (⟨none, ⟨0⟩, 3⟩ : Runtime Nat)).2.ctx = none) :=
  ⟨rfl, doTransactional_rolls_back_on_failure _ _ 7 rfl⟩

/-- Claim C4: when the work passed to `doTransactional` completes
normally, `doTransactional` commits the transaction (the database state
produced by the work becomes the state after the call) and returns
exactly the value the work returned. -/
theorem doTransactional_commits_on_success {δ ε α : Type}
    (fn : EntityManager → Runtime δ → Except ε α × Runtime δ)
    (s : Runtime δ) (a : α) (t : Runtime δ)
    (hok : fn (openedManager s) (scopedRuntime s) = (.ok a, t)) :
    doTransactional fn s = (.ok a, { t with ctx := s.ctx }) := by
  rw [doTransactional_eq, hok]

theorem doTransactional_commits_on_success_witness :
    (fun (_ : EntityManager) (t : Runtime Nat) =>
        ((Except.ok 42 : Except Unit Nat), { t with db := 99 }))
      (openedManager (⟨none, ⟨0⟩, 3⟩ : Runtime Nat))
      (scopedRuntime (⟨none, ⟨0⟩, 3⟩ : Runtime Nat))
      = (Except.ok 42, { scopedRuntime (⟨none, ⟨0⟩, 3⟩ : Runtime Nat) with db := 99 })
    ∧ doTransactional
        (fun (_ : EntityManager) (t : Runtime Nat) =>
          ((Except.ok 42 : Except Unit Nat), { t with db := 99 }))
        (⟨none, ⟨0⟩, 3⟩ : Runtime Nat)
      = (Except.ok 42,
          { scopedRuntime (⟨none, ⟨0⟩, 3⟩ : Runtime Nat) with ctx := none, db := 99 }) :=
  ⟨rfl, doTransactional_commits_on_success _ _ 42 _ rfl⟩

/-- Claim C6: establishing a scope inside `doTransactional` has no side
effect on the scope of the caller: whatever store (or absence of one) was
current before the call is current again after it, for every work
function — normally completing or failing — while the work itself runs
under the fresh shadowing scope. -/
theorem doTransactional_scope_frame {δ ε α : Type}
    (fn : EntityManager → Runtime δ → Except ε α × Runtime δ) (s : Runtime δ) :
    (doTransactional fn s).2.ctx = s.ctx
    ∧ (scopedRuntime s).ctx
        = some (Store.set Store.emptyMap typeOrmKey (openedManager s))
    ∧ (doTransactional fn s).1 = (fn (openedManager s) (scopedRuntime s)).1 := by
  rw [doTransactional_eq]
  rcases fn (openedManager s) (scopedRuntime s) with ⟨r, t⟩
  cases r <;> exact ⟨rfl, rfl, rfl⟩

/-- Claim C10: the work passed to `doTransactional` is invoked with the
newly opened transactional manager as its first explicit argument, and
that same manager is what `getManager` returns ambiently inside the
scope, so the parameter and the ambient handle coincide. -/
theorem doTransactional_passes_handle {δ ε α : Type}
    (fn : EntityManager → Runtime δ → Except ε α × Runtime δ) (s : Runtime δ) :
    (doTransactional fn s).1 = (fn (openedManager s) (scopedRuntime s)).1
    ∧ getManager (scopedRuntime s) = (openedManager s, scopedRuntime s)
    ∧ (openedManager s).transactional = true := by
  refine ⟨?_, getManager_scoped s, rfl⟩
  rw [doTransactional_eq]
  rcases fn (openedManager s) (scopedRuntime s) with ⟨r, t⟩
  cases r <;> rfl

/-- Claim C7: a `doTransactional` call nested inside an already-open
transactional call runs from the scoped runtime of the outer call, opens
a new transactional manager distinct from the outer one, and establishes
a new scope holding only the inner manager — so `getManager` inside the
nested work yields the inner, never the enclosing, handle: nested
transactions are independent, they never join. -/
theorem doTransactional_nested_fresh {δ ε α : Type}
    (inner : EntityManager → Runtime δ → Except ε α × Runtime δ) (s : Runtime δ) :
    (doTransactional (fun _m s1 => doTransactional inner s1) s).1
      = (doTransactional inner (scopedRuntime s)).1
    ∧ openedManager (scopedRuntime s) ≠ openedManager s
    ∧ (scopedRuntime (scopedRuntime s)).ctx
        = some (Store.set Store.emptyMap typeOrmKey (openedManager (scopedRuntime s)))
    ∧ (getManager (scopedRuntime (scopedRuntime s))).1
        = openedManager (scopedRuntime s) := by
  refine ⟨?_, ?_, rfl, ?_⟩
  · rw [doTransactional_eq]
    rcases doTransactional inner (scopedRuntime s) with ⟨r, t⟩
    cases r <;> rfl
  · simp only [openedManager, scopedRuntime, EntityManager.mk.injEq, ne_eq,
      and_true, not_false_eq_true]
    omega
  · rw [getManager_scoped]

/-- Claim C3: `getManager` with an active store holding the well-known
key returns the stored handle without touching the connection; in every
other case — no active store (no scope at all), or a store without the
key — it returns a freshly created default non-transactional manager.
The function is total: calling it outside any scope is not an error. -/
theorem getManager_spec {δ : Type} (s : Runtime δ) :
    match s.ctx with
    | some st =>
        if Store.has st typeOrmKey then
          Store.get st typeOrmKey = some (getManager s).1 ∧ (getManager s).2 = s
        else
          (getManager s).1 = ⟨s.conn.nextId, false⟩
          ∧ (getManager s).2 = { s with conn := ⟨s.conn.nextId + 1⟩ }
    | none =>
        (getManager s).1 = ⟨s.conn.nextId, false⟩
        ∧ (getManager s).2 = { s with conn := ⟨s.conn.nextId + 1⟩ } := by
  rcases s with ⟨ctx, conn, db⟩
  cases ctx with
  | none => exact ⟨rfl, rfl⟩
  | some st =>
      simp only
      by_cases h : Store.has st typeOrmKey
      · rw [if_pos h]
        obtain ⟨v, hv⟩ := Option.isSome_iff_exists.mp h
        refine ⟨?_, ?_⟩ <;> simp [getManager, h, hv]
      · rw [if_neg h]
        refine ⟨?_, ?_⟩ <;> simp [getManager, h, Connection.createEntityManager]

/-- Claim C5: the interceptor route (`TransactionStorageInterceptor.
intercept`, which delegates to `doTransactionalCallHandler`) has exactly
the transactional semantics of `doTransactional` applied to the enclosed
continuation (the continuation is awaited to completion inside the scope
before the transaction resolves), and in particular a failure raised
anywhere in downstream request processing is re-raised and rolls the
transaction back just as a failure inside `doTransactional` would. -/
theorem interceptor_matches_doTransactional {δ ε α : Type}
    (next : CallHandler δ ε α) (s : Runtime δ) :
    TransactionStorageInterceptor.intercept next s
      = doTransactional (fun _manager => next.handle) s
    ∧ ∀ e : ε, (next.handle (scopedRuntime s)).1 = .error e →
        (TransactionStorageInterceptor.intercept next s).1 = .error e
        ∧ (TransactionStorageInterceptor.intercept next s).2.db = s.db := by
  constructor
  · rfl
  · intro e he
    have heq : TransactionStorageInterceptor.intercept next s
        = doTransactional (fun _manager => next.handle) s := rfl
    rw [heq, doTransactional_eq]
    rcases h : next.handle (scopedRuntime s) with ⟨r, t⟩
    rw [h] at he
    simp only at he
    subst he
    exact ⟨rfl, rfl⟩

theorem interceptor_matches_doTransactional_witness :
    ((⟨fun t => (Except.error 5, t)⟩ : CallHandler Unit Nat Nat).handle
        (scopedRuntime (⟨none, ⟨0⟩, ()⟩ : Runtime Unit))).1 = Except.error 5
    ∧ ((TransactionStorageInterceptor.intercept
          (⟨fun t => (Except.error 5, t)⟩ : CallHandler Unit Nat Nat)
          (⟨none, ⟨0⟩, ()⟩ : Runtime Unit)).1 = Except.error 5
      ∧ (TransactionStorageInterceptor.intercept
          (⟨fun t => (Except.error 5, t)⟩ : CallHandler Unit Nat Nat)
          (⟨none, ⟨0⟩, ()⟩ : Runtime Unit)).2.db = ()) :=
  ⟨rfl, (interceptor_matches_doTransactional
      (⟨fun t => (Except.error 5, t)⟩ : CallHandler Unit Nat Nat)
      (⟨none, ⟨0⟩, ()⟩ : Runtime Unit)).2 5 rfl⟩

theorem stepGetMgr_stored (m : EntityManager) (p : List Step) (c : Connection) :
    stepGetMgr ⟨some (Store.set Store.emptyMap typeOrmKey m), p⟩ c = (m, c) := by
  simp [stepGetMgr,
    getManager_of_stored (δ := Unit)
      ⟨some (Store.set Store.emptyMap typeOrmKey m), c, ()⟩
      (Store.set Store.emptyMap typeOrmKey m) m rfl
      (Store.get_set_self Store.emptyMap typeOrmKey m)]

theorem runSched_log_own_manager (mA mB : EntityManager) (sched : List Bool) :
    ∀ (pA pB : List Step) (c : Connection) (x : Bool × EntityManager),
      x ∈ runSched sched ⟨some (Store.set Store.emptyMap typeOrmKey mA), pA⟩
            ⟨some (Store.set Store.emptyMap typeOrmKey mB), pB⟩ c →
      (x.1 = false → x.2 = mA) ∧ (x.1 = true → x.2 = mB) := by
  induction sched with
  | nil =>
      intro pA pB c x hx
      simp [runSched] at hx
  | cons pick rest ih =>
      intro pA pB c x hx
      cases pick with
      | true =>
          cases pB with
          | nil =>
              exact ih pA [] c x hx
          | cons st ps =>
              cases st with
              | getMgr =>
                  rw [runSched, if_pos rfl] at hx
                  simp only [stepGetMgr_stored] at hx
                  rcases List.mem_cons.mp hx with hhd | htl
                  · subst hhd
                    exact ⟨fun hf => by simp at hf, fun _ => rfl⟩
                  · exact ih pA ps c x htl
              | suspend =>
                  rw [runSched, if_pos rfl] at hx
                  exact ih pA ps c x hx
      | false =>
          cases pA with
          | nil =>
              exact ih [] pB c x hx
          | cons st ps =>
              cases st with
              | getMgr =>
                  rw [runSched, if_neg (by simp)] at hx
                  simp only [stepGetMgr_stored] at hx
                  rcases List.mem_cons.mp hx with hhd | htl
                  · subst hhd
                    exact ⟨fun _ => rfl, fun ht => by simp at ht⟩
                  · exact ih ps pB c x htl
              | suspend =>
                  rw [runSched, if_neg (by simp)] at hx
                  exact ih ps pB c x hx

/-- Claim C2: two concurrently interleaved units of work A and B, each
running inside the scope its own `doTransactional` established (the
scoped runtime holding its own opened manager), never cross: under every
schedule of interleaved resumptions, every `getManager` call made in the
call tree of A — including after A suspends and resumes — returns a
handle different from the one B opened, and vice versa. -/
theorem interleaved_units_never_cross {δ : Type} (sA sB : Runtime δ)
    (hne : openedManager sA ≠ openedManager sB)
    (sched : List Bool) (pA pB : List Step) (c : Connection)
    (x : Bool × EntityManager)
    (hx : x ∈ runSched sched ⟨(scopedRuntime sA).ctx, pA⟩
            ⟨(scopedRuntime sB).ctx, pB⟩ c) :
    (x.1 = false → x.2 ≠ openedManager sB)
    ∧ (x.1 = true → x.2 ≠ openedManager sA) := by
  have h := runSched_log_own_manager (openedManager sA) (openedManager sB)
    sched pA pB c x hx
  exact ⟨fun hf hcontra => hne ((h.1 hf).symm.trans hcontra),
         fun ht hcontra => hne (hcontra.symm.trans (h.2 ht))⟩

theorem interleaved_units_never_cross_witness :
    openedManager (⟨none, ⟨0⟩, 0⟩ : Runtime Nat)
        ≠ openedManager (⟨none, ⟨5⟩, 0⟩ : Runtime Nat)
    ∧ ((false, openedManager (⟨none, ⟨0⟩, 0⟩ : Runtime Nat)) ∈
        runSched [false, true, true, false]
          ⟨(scopedRuntime (⟨none, ⟨0⟩, 0⟩ : Runtime Nat)).ctx,
            [Step.getMgr, Step.suspend, Step.getMgr]⟩
          ⟨(scopedRuntime (⟨none, ⟨5⟩, 0⟩ : Runtime Nat)).ctx, [Step.getMgr]⟩
          ⟨17⟩)
    ∧ (((false, openedManager (⟨none, ⟨0⟩, 0⟩ : Runtime Nat)) : Bool × EntityManager).1 = false →
        ((false, openedManager (⟨none, ⟨0⟩, 0⟩ : Runtime Nat)) : Bool × EntityManager).2
          ≠ openedManager (⟨none, ⟨5⟩, 0⟩ : Runtime Nat))
    ∧ (((false, openedManager (⟨none, ⟨0⟩, 0⟩ : Runtime Nat)) : Bool × EntityManager).1 = true →
        ((false, openedManager (⟨none, ⟨0⟩, 0⟩ : Runtime Nat)) : Bool × EntityManager).2
          ≠ openedManager (⟨none, ⟨0⟩, 0⟩ : Runtime Nat)) :=
  ⟨by decide, by decide,
    interleaved_units_never_cross (⟨none, ⟨0⟩, 0⟩ : Runtime Nat)
      (⟨none, ⟨5⟩, 0⟩ : Runtime Nat) (by decide)
      [false, true, true, false]
      [Step.getMgr, Step.suspend, Step.getMgr] [Step.getMgr] ⟨17⟩
      (false, openedManager (⟨none, ⟨0⟩, 0⟩ : Runtime Nat)) (by decide)⟩

/-- Claim C9: when no order carries the requested identifier, the
repository get-by-identifier operation fails with the NotFound-class
error, and the service layer surfaces exactly that call — the failure
reaches the caller unchanged, with no retry and no recovery. -/
theorem getById_not_found (s : Runtime OrderDB) (idOrder : Nat)
    (h : ∀ o ∈ s.db.orders, o.id ≠ idOrder) :
    (OrderRepository.getById s idOrder).1
      = .error (AppError.entityNotFound "Order")
    ∧ OrderService.getById s idOrder = OrderRepository.getById s idOrder := by
  refine ⟨?_, rfl⟩
  rcases hg : getManager s with ⟨m, s1⟩
  have hdb : s1.db = s.db := by
    have := getManager_db_eq s
    rw [hg] at this
    exact this
  have hfind : s1.db.findOrderWithItems idOrder = none := by
    rw [hdb]
    unfold OrderDB.findOrderWithItems
    rw [List.find?_eq_none.mpr]
    intro o ho
    simp only [beq_iff_eq]
    exact h o ho
  simp [OrderRepository.getById, hg, hfind]

theorem getById_not_found_witness :
    (∀ o ∈ (⟨none, ⟨0⟩, ⟨[], [], 1, 1⟩⟩ : Runtime OrderDB).db.orders, o.id ≠ 1)
    ∧ ((OrderRepository.getById (⟨none, ⟨0⟩, ⟨[], [], 1, 1⟩⟩ : Runtime OrderDB) 1).1
        = .error (AppError.entityNotFound "Order")
      ∧ OrderService.getById (⟨none, ⟨0⟩, ⟨[], [], 1, 1⟩⟩ : Runtime OrderDB) 1
        = OrderRepository.getById (⟨none, ⟨0⟩, ⟨[], [], 1, 1⟩⟩ : Runtime OrderDB) 1) :=
  ⟨by simp, getById_not_found (⟨none, ⟨0⟩, ⟨[], [], 1, 1⟩⟩ : Runtime OrderDB) 1 (by simp)⟩

/-- Claim C8: with the injected-failure draw disabled (every draw above
the failing range), creating the order dated 2021-11-03, described
"Testing transaction", with the single item T-Shirt of quantity 1,
through the transactional path (`createFirstWay`, that is
`doTransactional` around `OrderService.createOrder`) starting from an
empty database persists both the order and its item, and the
get-by-identifier operation afterwards retrieves the order together with
that item. -/
theorem scenario_a_success :
    (OrderController.createFirstWay (fun _ => 4)
        ⟨"2021-11-03", "Testing transaction", [⟨"T-Shirt", 1⟩]⟩
        ⟨none, ⟨0⟩, ⟨[], [], 1, 1⟩⟩).1
      = .ok ⟨1, "2021-11-03", "Testing transaction"⟩
    ∧ (OrderRepository.getById
        (OrderController.createFirstWay (fun _ => 4)
          ⟨"2021-11-03", "Testing transaction", [⟨"T-Shirt", 1⟩]⟩
          ⟨none, ⟨0⟩, ⟨[], [], 1, 1⟩⟩).2 1).1
      = .ok (⟨1, "2021-11-03", "Testing transaction"⟩, [⟨1, "T-Shirt", 1, 1⟩]) := by
  exact ⟨rfl, rfl⟩

end UoW
